import Mathlib

/-!
Verification development for the BleInTheBackground sample application.

The embedding models, function by function, the logic of:
  * `src/BleManager.ts` — the tick-exchange protocol (`downloadTicks`,
    `waitForPendingTicks`), connection establishment (`establishConnection`),
    and the scheduled processing job (`scheduleBackgroundProcessingTask`);
  * `ios/Modules/Background.m` — the native timer registry (`setTimeout`,
    `clearTimeout`), the background-task registry (`startBackgroundTask`,
    `endBackgroundTask`, the expiry handler), and the processing-task
    registry (`backgroundTaskExecuting`, `completeBackgroundProcessing`).

Dictionaries (`NSMutableDictionary`) are modelled as association lists with
overwrite-on-insert semantics; asynchronous callback streams are modelled as
explicit event lists folded through the callback's state transition.
-/

/-! ### Association-list registries (NSMutableDictionary semantics) -/

/-- Dictionary lookup (`objectForKey`). -/
def lookupKey {α : Type} (k : String) : List (String × α) → Option α
  | [] => none
  | (q, v) :: rest => if q = k then some v else lookupKey k rest

/-- Dictionary removal (`removeObjectForKey`). -/
def eraseKey {α : Type} (k : String) : List (String × α) → List (String × α)
  | [] => []
  | (q, v) :: rest => if q = k then eraseKey k rest else (q, v) :: eraseKey k rest

/-- Dictionary insertion with overwrite (`setValue:forKey:`). -/
def insertKey {α : Type} (k : String) (v : α) (l : List (String × α)) :
    List (String × α) :=
  (k, v) :: eraseKey k l

theorem lookupKey_eraseKey_self {α : Type} (k : String) (l : List (String × α)) :
    lookupKey k (eraseKey k l) = none := by
  induction l with
  | nil => rfl
  | cons p rest ih =>
    obtain ⟨q, v⟩ := p
    by_cases h : q = k
    · simpa [eraseKey, h] using ih
    · simpa [eraseKey, lookupKey, h] using ih

theorem lookupKey_insertKey_self {α : Type} (k : String) (v : α)
    (l : List (String × α)) : lookupKey k (insertKey k v l) = some v := by
  simp [insertKey, lookupKey]

theorem lookupKey_eraseKey_ne {α : Type} (k q : String) (l : List (String × α))
    (h : q ≠ k) : lookupKey q (eraseKey k l) = lookupKey q l := by
  induction l with
  | nil => rfl
  | cons p rest ih =>
    obtain ⟨r, v⟩ := p
    by_cases hr : r = k
    · have hkq : ¬ k = q := by
        intro hh
        exact h hh.symm
      simp [eraseKey, lookupKey, hr, hkq, ih]
    · by_cases hq : r = q
      · simp [eraseKey, lookupKey, hr, hq, h]
      · simp [eraseKey, lookupKey, hr, hq, ih]

/-! ### `downloadTicks` (BleManager.ts)

The promise executor first validates `totalTicks`, then registers the
notification monitor, then issues the request write.  The monitor callback
is modelled as a state transition folded over the incoming event list.
JavaScript promises settle once, so the settled value is first-write-wins.
-/

/-- One invocation of the monitor callback: a transport error, a
characteristic with no value, or a received 4-byte tick value. -/
inductive MonitorEvent : Type
  | value (v : Nat)
  | noValue
  | errEvt
deriving DecidableEq, Repr

/-- Errors of the tick protocol. -/
inductive DLError : Type
  | invalidArgument
  | transportError
deriving DecidableEq, Repr

/-- Promise outcome of `downloadTicks`. -/
inductive DLOutcome : Type
  | ok (n : Int)
  | err (e : DLError)
deriving DecidableEq, Repr

/-- State captured by the `downloadTicks` monitor callback closure. -/
structure DLState : Type where
  receivedTicks : Nat
  subActive : Bool
  settled : Option DLOutcome
  onTickCalls : List (Int × Int × Nat)
deriving DecidableEq, Repr

/-- Promises settle exactly once: later resolve/reject calls are ignored. -/
def dlSettle (cur : Option DLOutcome) (out : DLOutcome) : Option DLOutcome :=
  match cur with
  | some o => some o
  | none => some out

/-- The monitor callback of `downloadTicks`.  Events are delivered only while
the subscription is registered.  On error the callback rejects and returns
without removing the subscription; on a value it increments the counter,
invokes `onTick`, and on reaching `totalTicks` removes the subscription and
resolves. -/
def dlStep (totalTicks : Int) (st : DLState) (ev : MonitorEvent) : DLState :=
  if st.subActive = false then st
  else
    match ev with
    | .errEvt => { st with settled := dlSettle st.settled (.err .transportError) }
    | .noValue => st
    | .value v =>
      let k := st.receivedTicks + 1
      let calls := st.onTickCalls ++ [((k : Int), totalTicks, v)]
      if (k : Int) = totalTicks then
        { receivedTicks := k, subActive := false,
          settled := dlSettle st.settled (.ok totalTicks), onTickCalls := calls }
      else
        { st with receivedTicks := k, onTickCalls := calls }

/-- State of the closure just after the subscription is registered. -/
def dlInit : DLState := ⟨0, true, none, []⟩

/-- Observable result of one `downloadTicks` call. -/
structure DLResult : Type where
  settled : Option DLOutcome
  subCreated : Bool
  subActive : Bool
  wroteRequest : Bool
  onTickCalls : List (Int × Int × Nat)
deriving DecidableEq, Repr

/-- `downloadTicks(device, totalTicks, onTick)`: reject out-of-range counts
before any subscription or write; otherwise subscribe, write the one-byte
request (`writeOk` tells whether the write promise resolves), and process the
notification events.  A failed write removes the subscription and rejects. -/
def downloadTicks (totalTicks : Int) (writeOk : Bool)
    (events : List MonitorEvent) : DLResult :=
  if totalTicks ≤ 0 ∨ 256 ≤ totalTicks then
    { settled := some (.err .invalidArgument), subCreated := false,
      subActive := false, wroteRequest := false, onTickCalls := [] }
  else if writeOk then
    let fin := events.foldl (dlStep totalTicks) dlInit
    { settled := fin.settled, subCreated := true, subActive := fin.subActive,
      wroteRequest := true, onTickCalls := fin.onTickCalls }
  else
    { settled := some (.err .transportError), subCreated := true,
      subActive := false, wroteRequest := true, onTickCalls := [] }

/-- Claim C1: out-of-range `totalTicks` rejects with `InvalidArgument` before
any subscription or write side effect; in-range `totalTicks` passes the
precondition and the request is written. -/
theorem downloadTicks_precondition (t : Int) (w : Bool) (evs : List MonitorEvent) :
    ((t ≤ 0 ∨ 256 ≤ t) →
      downloadTicks t w evs =
        ⟨some (.err .invalidArgument), false, false, false, []⟩)
    ∧ ((0 < t ∧ t < 256) → (downloadTicks t w evs).wroteRequest = true) := by
  constructor
  · intro h
    simp [downloadTicks, h]
  · intro h
    have hn : ¬ (t ≤ 0 ∨ 256 ≤ t) := by omega
    cases w <;> simp [downloadTicks, hn]

/-- Claim C1 witness: concrete evaluations at 0, 256 and 1. -/
theorem downloadTicks_precondition_witness :
    downloadTicks 0 true [] =
      ⟨some (.err .invalidArgument), false, false, false, []⟩
    ∧ downloadTicks 256 true [] =
      ⟨some (.err .invalidArgument), false, false, false, []⟩
    ∧ (downloadTicks 1 true []).wroteRequest = true :=
  ⟨(downloadTicks_precondition 0 true []).1 (Or.inl (by decide)),
   (downloadTicks_precondition 256 true []).1 (Or.inr (by decide)),
   (downloadTicks_precondition 1 true []).2 ⟨by decide, by decide⟩⟩

/-- The list of `onTick` invocations produced by a run of value events that
starts at received count `k`: counts ascend one by one from `k + 1`. -/
def dlCalls (totalTicks : Int) : Nat → List Nat → List (Int × Int × Nat)
  | _, [] => []
  | k, v :: vs => (((k + 1 : Nat) : Int), totalTicks, v) :: dlCalls totalTicks (k + 1) vs

/-- Consecutive integers starting at `s`, of length `n`. -/
def countsFrom : Int → Nat → List Int
  | _, 0 => []
  | s, n + 1 => s :: countsFrom (s + 1) n

theorem dlCalls_length (t : Int) (vs : List Nat) :
    ∀ k, (dlCalls t k vs).length = vs.length := by
  induction vs with
  | nil => intro k; rfl
  | cons v vs ih => intro k; simp [dlCalls, ih]

theorem dlCalls_fst (t : Int) (vs : List Nat) :
    ∀ k, (dlCalls t k vs).map (fun c => c.1) = countsFrom ((k : Int) + 1) vs.length := by
  induction vs with
  | nil => intro k; rfl
  | cons v vs ih =>
    intro k
    have hk : ((k + 1 : Nat) : Int) = (k : Int) + 1 := by push_cast; ring
    simp [dlCalls, countsFrom, ih (k + 1), hk]


/-- Folding value events while the count stays strictly below `totalTicks`
leaves the session unresolved with the subscription registered. -/
theorem dl_fold_lt (t : Int) (vs : List Nat) :
    ∀ (k : Nat) (acc : List (Int × Int × Nat)), (k : Int) + vs.length < t →
      (vs.map MonitorEvent.value).foldl (dlStep t) ⟨k, true, none, acc⟩ =
        ⟨k + vs.length, true, none, acc ++ dlCalls t k vs⟩ := by
  induction vs with
  | nil =>
    intro k acc _
    simp [dlCalls]
  | cons v vs ih =>
    intro k acc hlt
    simp only [List.length_cons] at hlt
    push_cast at hlt
    have hne : ¬ ((k : Int) + 1 = t) := by omega
    have hstep :
        dlStep t ⟨k, true, none, acc⟩ (MonitorEvent.value v) =
          ⟨k + 1, true, none, acc ++ [((k : Int) + 1, t, v)]⟩ := by
      simp [dlStep, hne]
    have hrec := ih (k + 1) (acc ++ [((k : Int) + 1, t, v)]) (by push_cast; omega)
    calc (((v :: vs).map MonitorEvent.value).foldl (dlStep t) ⟨k, true, none, acc⟩)
        = (vs.map MonitorEvent.value).foldl (dlStep t)
            ⟨k + 1, true, none, acc ++ [((k : Int) + 1, t, v)]⟩ := by
          simp only [List.map_cons, List.foldl_cons, hstep]
      _ = ⟨k + 1 + vs.length, true, none,
            (acc ++ [((k : Int) + 1, t, v)]) ++ dlCalls t (k + 1) vs⟩ := hrec
      _ = ⟨k + (v :: vs).length, true, none, acc ++ dlCalls t k (v :: vs)⟩ := by
          simp [dlCalls]
          omega

/-- Folding value events whose count reaches exactly `totalTicks` resolves the
session and removes the subscription at that point. -/
theorem dl_fold_eq (t : Int) (vs : List Nat) :
    ∀ (k : Nat) (acc : List (Int × Int × Nat)),
      (k : Int) + vs.length = t → 0 < vs.length →
      (vs.map MonitorEvent.value).foldl (dlStep t) ⟨k, true, none, acc⟩ =
        ⟨k + vs.length, false, some (.ok t), acc ++ dlCalls t k vs⟩ := by
  induction vs with
  | nil =>
    intro k acc _ hpos
    exact absurd hpos (by simp)
  | cons v vs ih =>
    intro k acc heq _
    simp only [List.length_cons] at heq
    push_cast at heq
    by_cases hdone : (k : Int) + 1 = t
    · have hnil : vs = [] := by
        have hz : (vs.length : Int) = 0 := by omega
        have hlen : vs.length = 0 := by exact_mod_cast hz
        exact List.length_eq_zero.mp hlen
      subst hnil
      have hstep :
          dlStep t ⟨k, true, none, acc⟩ (MonitorEvent.value v) =
            ⟨k + 1, false, some (.ok t), acc ++ [((k : Int) + 1, t, v)]⟩ := by
        simp [dlStep, dlSettle, hdone]
      simp only [List.map_cons, List.map_nil, List.foldl_cons, List.foldl_nil, hstep]
      simp [dlCalls, hdone]
    · have hstep :
          dlStep t ⟨k, true, none, acc⟩ (MonitorEvent.value v) =
            ⟨k + 1, true, none, acc ++ [((k : Int) + 1, t, v)]⟩ := by
        simp [dlStep, hdone]
      have hpos : 0 < vs.length := by
        rcases vs with _ | ⟨w, ws⟩
        · exfalso
          simp at heq
          exact hdone (by omega)
        · simp
      have hrec := ih (k + 1) (acc ++ [((k : Int) + 1, t, v)]) (by push_cast; omega) hpos
      calc (((v :: vs).map MonitorEvent.value).foldl (dlStep t) ⟨k, true, none, acc⟩)
          = (vs.map MonitorEvent.value).foldl (dlStep t)
              ⟨k + 1, true, none, acc ++ [((k : Int) + 1, t, v)]⟩ := by
            simp only [List.map_cons, List.foldl_cons, hstep]
        _ = ⟨k + 1 + vs.length, false, some (.ok t),
              (acc ++ [((k : Int) + 1, t, v)]) ++ dlCalls t (k + 1) vs⟩ := hrec
        _ = ⟨k + (v :: vs).length, false, some (.ok t),
              acc ++ dlCalls t k (v :: vs)⟩ := by
            simp [dlCalls]
            omega

/-- Claim C2: in a valid bounded download session fed only value events,
`onTick` fires exactly once per received value with counts strictly ascending
from 1, the session stays unresolved while fewer than `totalTicks` values
arrived, and it resolves, removing the subscription, exactly when the count
reaches `totalTicks`. -/
theorem downloadTicks_bounded_session (t : Int) (vs : List Nat)
    (h1 : 1 ≤ t) (h2 : t ≤ 255) (h3 : (vs.length : Int) ≤ t) :
    (downloadTicks t true (vs.map MonitorEvent.value)).onTickCalls = dlCalls t 0 vs
    ∧ ((downloadTicks t true (vs.map MonitorEvent.value)).onTickCalls.map
        (fun c => c.1)) = countsFrom 1 vs.length
    ∧ (downloadTicks t true (vs.map MonitorEvent.value)).onTickCalls.length = vs.length
    ∧ ((vs.length : Int) < t →
        (downloadTicks t true (vs.map MonitorEvent.value)).settled = none
        ∧ (downloadTicks t true (vs.map MonitorEvent.value)).subActive = true)
    ∧ ((vs.length : Int) = t →
        (downloadTicks t true (vs.map MonitorEvent.value)).settled
          = some (DLOutcome.ok t)
        ∧ (downloadTicks t true (vs.map MonitorEvent.value)).subActive = false) := by
  have hn : ¬ (t ≤ 0 ∨ 256 ≤ t) := by omega
  rcases lt_or_eq_of_le h3 with hlt | heq
  · have hfold := dl_fold_lt t vs 0 [] (by push_cast; omega)
    refine ⟨?_, ?_, ?_, ?_, ?_⟩
    · simp [downloadTicks, hn, dlInit, hfold]
    · simp [downloadTicks, hn, dlInit, hfold, dlCalls_fst]
    · simp [downloadTicks, hn, dlInit, hfold, dlCalls_length]
    · intro _
      constructor <;> simp [downloadTicks, hn, dlInit, hfold]
    · intro h
      exact absurd h (by omega)
  · have hpos : 0 < vs.length := by
      by_contra hc
      push_neg at hc
      have h0 : vs.length = 0 := by omega
      rw [h0] at heq
      simp at heq
      omega
    have hfold := dl_fold_eq t vs 0 [] (by push_cast; omega) hpos
    refine ⟨?_, ?_, ?_, ?_, ?_⟩
    · simp [downloadTicks, hn, dlInit, hfold]
    · simp [downloadTicks, hn, dlInit, hfold, dlCalls_fst]
    · simp [downloadTicks, hn, dlInit, hfold, dlCalls_length]
    · intro h
      exact absurd h (by omega)
    · intro _
      constructor <;> simp [downloadTicks, hn, dlInit, hfold]

set_option maxRecDepth 8000 in
/-- Claim C2 witness: 255 delivered values resolve the 255-tick session with
the subscription removed. -/
theorem downloadTicks_bounded_session_witness :
    (downloadTicks 255 true ((List.replicate 255 7).map MonitorEvent.value)).settled
      = some (DLOutcome.ok 255)
    ∧ (downloadTicks 255 true
        ((List.replicate 255 7).map MonitorEvent.value)).subActive = false :=
  (downloadTicks_bounded_session 255 (List.replicate 255 7) (by decide) (by decide)
      (by simp)).2.2.2.2 (by simp)

/-! ### `waitForPendingTicks` (BleManager.ts)

The promise executor seeds an idle timer at `tickTimeout`, then registers the
notification monitor.  Incoming frames are modelled as a time-stamped event
list; before delivering an event the pending timer fires if its deadline has
been reached.  The timer callback nulls its own slot, runs
`clearSubscriptions` (removing the monitor and resolving); the monitor error
path nulls the monitor slot first, so `clearSubscriptions` only clears the
timer, and the promise rejects without a `remove` call on the subscription.
-/

/-- One notification frame of the idle-drain session. -/
inductive WPEvent : Type
  | value (v : Nat)
  | errEvt
deriving DecidableEq, Repr

/-- Promise outcome of `waitForPendingTicks`. -/
inductive WPOutcome : Type
  | resolved
  | rejected
deriving DecidableEq, Repr

/-- State of the `waitForPendingTicks` closure.  `monitorRef` is the
`subscriptions.monitor` slot; `monitorRemoved` records whether `remove` was
ever called on the subscription; `deadline` is the pending idle timer's fire
time. -/
structure WPState : Type where
  monitorRef : Bool
  monitorRemoved : Bool
  deadline : Option Nat
  settled : Option WPOutcome
  resolveTime : Option Nat
  onTickCalls : List Nat
deriving DecidableEq, Repr

/-- Promises settle exactly once. -/
def wpSettle (cur : Option WPOutcome) (out : WPOutcome) : Option WPOutcome :=
  match cur with
  | some o => some o
  | none => some out

/-- The idle-timer callback firing at time `d`: it nulls the timer slot, runs
`clearSubscriptions` (which removes the monitor subscription), and resolves. -/
def wpFire (d : Nat) (st : WPState) : WPState :=
  { monitorRef := false,
    monitorRemoved := st.monitorRemoved || st.monitorRef,
    deadline := none,
    settled := wpSettle st.settled .resolved,
    resolveTime :=
      match st.settled with
      | none => some d
      | some _ => st.resolveTime,
    onTickCalls := st.onTickCalls }

/-- Deliver the time-stamped event `tev`: the pending timer fires first if its
deadline is due; then, if the subscription was never removed, the monitor
callback runs — rejecting on error (after clearing only the timer), or
invoking `onTick` and restarting the idle timer on a value. -/
def wpStep (tickTimeout : Nat) (st : WPState) (tev : Nat × WPEvent) : WPState :=
  let st1 :=
    match st.deadline with
    | some d => if d ≤ tev.1 then wpFire d st else st
    | none => st
  if st1.monitorRemoved then st1
  else
    match tev.2 with
    | .errEvt =>
      { st1 with monitorRef := false, deadline := none,
                 settled := wpSettle st1.settled .rejected }
    | .value v =>
      { st1 with onTickCalls := st1.onTickCalls ++ [v],
                 deadline := some (tev.1 + tickTimeout) }

/-- After the event list is exhausted the pending idle timer, if any, fires. -/
def wpFinish (st : WPState) : WPState :=
  match st.deadline with
  | some d => wpFire d st
  | none => st

/-- State just after the executor ran: timer seeded, monitor registered. -/
def wpInit (tickTimeout : Nat) : WPState :=
  { monitorRef := true, monitorRemoved := false, deadline := some tickTimeout,
    settled := none, resolveTime := none, onTickCalls := [] }

/-- `waitForPendingTicks(device, tickTimeout, onTick)` run on a time-stamped
event list. -/
def waitForPendingTicks (tickTimeout : Nat) (events : List (Nat × WPEvent)) :
    WPState :=
  wpFinish (events.foldl (wpStep tickTimeout) (wpInit tickTimeout))

/-- A time-stamped value list is live for deadline `d` when every value
arrives strictly before the idle deadline current at its arrival. -/
def wpLiveb (tickTimeout : Nat) : Nat → List (Nat × Nat) → Bool
  | _, [] => true
  | d, (τ, _) :: rest => decide (τ < d) && wpLiveb tickTimeout (τ + tickTimeout) rest

/-- Deadline of the idle timer after all values of the list arrived. -/
def wpLastDeadline (tickTimeout : Nat) (d : Nat) : List (Nat × Nat) → Nat
  | [] => d
  | (τ, _) :: rest => wpLastDeadline tickTimeout (τ + tickTimeout) rest

/-- Folding live value events keeps the session pending, restarts the timer
at each arrival, and accumulates one `onTick` call per value. -/
theorem wp_fold_values (tickTimeout : Nat) (tvs : List (Nat × Nat)) :
    ∀ (d : Nat) (acc : List Nat), wpLiveb tickTimeout d tvs = true →
      ((tvs.map (fun p => (p.1, WPEvent.value p.2))).foldl (wpStep tickTimeout)
          ⟨true, false, some d, none, none, acc⟩) =
        ⟨true, false, some (wpLastDeadline tickTimeout d tvs), none, none,
          acc ++ tvs.map Prod.snd⟩ := by
  induction tvs with
  | nil =>
    intro d acc _
    simp [wpLastDeadline]
  | cons p rest ih =>
    intro d acc hlive
    obtain ⟨τ, v⟩ := p
    simp only [wpLiveb, Bool.and_eq_true, decide_eq_true_eq] at hlive
    obtain ⟨hτ, hrest⟩ := hlive
    have hstep :
        wpStep tickTimeout ⟨true, false, some d, none, none, acc⟩
            (τ, WPEvent.value v) =
          ⟨true, false, some (τ + tickTimeout), none, none, acc ++ [v]⟩ := by
      have hnd : ¬ d ≤ τ := by omega
      simp [wpStep, hnd]
    have hrec := ih (τ + tickTimeout) (acc ++ [v]) hrest
    simp only [List.map_cons, List.foldl_cons, hstep, hrec, wpLastDeadline]
    simp

/-- Claim C3: an idle-drain session over live value events invokes `onTick`
once per value, restarts the idle timer at each arrival, and resolves
successfully exactly when the timeout elapses after the last value (at the
seed timeout if no value ever arrives, with zero calls); a transport error
arriving before the deadline rejects the session instead. -/
theorem waitForPendingTicks_idle_drain (tickTimeout : Nat)
    (tvs : List (Nat × Nat)) (hlive : wpLiveb tickTimeout tickTimeout tvs = true) :
    (waitForPendingTicks tickTimeout
        (tvs.map (fun p => (p.1, WPEvent.value p.2)))).settled
      = some WPOutcome.resolved
    ∧ (waitForPendingTicks tickTimeout
        (tvs.map (fun p => (p.1, WPEvent.value p.2)))).resolveTime
      = some (wpLastDeadline tickTimeout tickTimeout tvs)
    ∧ (waitForPendingTicks tickTimeout
        (tvs.map (fun p => (p.1, WPEvent.value p.2)))).onTickCalls
      = tvs.map Prod.snd
    ∧ ∀ τe, τe < wpLastDeadline tickTimeout tickTimeout tvs →
        (waitForPendingTicks tickTimeout
            (tvs.map (fun p => (p.1, WPEvent.value p.2))
              ++ [(τe, WPEvent.errEvt)])).settled = some WPOutcome.rejected
        ∧ (waitForPendingTicks tickTimeout
            (tvs.map (fun p => (p.1, WPEvent.value p.2))
              ++ [(τe, WPEvent.errEvt)])).onTickCalls = tvs.map Prod.snd := by
  have hmid := wp_fold_values tickTimeout tvs tickTimeout [] hlive
  refine ⟨?_, ?_, ?_, ?_⟩
  · simp [waitForPendingTicks, wpInit, hmid, wpFinish, wpFire, wpSettle]
  · simp [waitForPendingTicks, wpInit, hmid, wpFinish, wpFire, wpSettle]
  · simp [waitForPendingTicks, wpInit, hmid, wpFinish, wpFire, wpSettle]
  · intro τe hτ
    have hnd : ¬ wpLastDeadline tickTimeout tickTimeout tvs ≤ τe := by omega
    constructor <;>
      simp [waitForPendingTicks, wpInit, List.foldl_append, hmid, wpStep, hnd,
        wpFinish, wpSettle]

/-- Claim C3 witness: with a 10000 ms idle timeout and one value at 9000 ms,
the session resolves at 19000 ms with exactly one `onTick` call. -/
theorem waitForPendingTicks_idle_drain_witness :
    (waitForPendingTicks 10000 [(9000, WPEvent.value 42)]).settled
      = some WPOutcome.resolved
    ∧ (waitForPendingTicks 10000 [(9000, WPEvent.value 42)]).resolveTime
      = some 19000
    ∧ (waitForPendingTicks 10000 [(9000, WPEvent.value 42)]).onTickCalls = [42] := by
  have h := waitForPendingTicks_idle_drain 10000 [(9000, 42)] (by decide)
  exact ⟨h.1, h.2.1, h.2.2.1⟩

/-- Claim C5 counterexample: on a notification-channel transport error the
`downloadTicks` promise settles (rejects) while the monitor subscription is
still registered — `remove` is never called on that path, refuting that every
terminal path releases the subscription before the promise settles. -/
theorem downloadTicks_error_leaves_subscription :
    (downloadTicks 1 true [MonitorEvent.errEvt]).settled
      = some (DLOutcome.err DLError.transportError)
    ∧ (downloadTicks 1 true [MonitorEvent.errEvt]).subActive = true := by
  decide

/-- Claim C5 (amended): on successful resolution and on a write error the
`downloadTicks` subscription is removed before settling, and the idle-drain
timer path removes its monitor subscription and timer on success; but on a
notification-channel error both operations settle without calling `remove`
on the monitor subscription — `downloadTicks` leaves it registered, while
`waitForPendingTicks` nulls the reference and clears only the idle timer. -/
theorem tick_session_teardown :
    (∀ (t : Int) (vs : List Nat), 1 ≤ t → t ≤ 255 → (vs.length : Int) = t →
        (downloadTicks t true (vs.map MonitorEvent.value)).subActive = false)
    ∧ (∀ t : Int, 0 < t → t < 256 →
        (downloadTicks t false []).subActive = false
        ∧ (downloadTicks t false []).settled
          = some (DLOutcome.err DLError.transportError))
    ∧ (∀ t : Int, 0 < t → t < 256 →
        (downloadTicks t true [MonitorEvent.errEvt]).settled
          = some (DLOutcome.err DLError.transportError)
        ∧ (downloadTicks t true [MonitorEvent.errEvt]).subActive = true)
    ∧ (∀ (tickTimeout : Nat) (tvs : List (Nat × Nat)),
        wpLiveb tickTimeout tickTimeout tvs = true →
        (waitForPendingTicks tickTimeout
            (tvs.map (fun p => (p.1, WPEvent.value p.2)))).monitorRemoved = true
        ∧ (waitForPendingTicks tickTimeout
            (tvs.map (fun p => (p.1, WPEvent.value p.2)))).deadline = none)
    ∧ (∀ tickTimeout τe : Nat, τe < tickTimeout →
        (waitForPendingTicks tickTimeout [(τe, WPEvent.errEvt)]).deadline = none
        ∧ (waitForPendingTicks tickTimeout
            [(τe, WPEvent.errEvt)]).monitorRemoved = false
        ∧ (waitForPendingTicks tickTimeout [(τe, WPEvent.errEvt)]).settled
          = some WPOutcome.rejected) := by
  refine ⟨?_, ?_, ?_, ?_, ?_⟩
  · intro t vs h1 h2 h3
    exact ((downloadTicks_bounded_session t vs h1 h2 (le_of_eq h3)).2.2.2.2 h3).2
  · intro t h1 h2
    have hn : ¬ (t ≤ 0 ∨ 256 ≤ t) := by omega
    constructor <;> simp [downloadTicks, hn]
  · intro t h1 h2
    have hn : ¬ (t ≤ 0 ∨ 256 ≤ t) := by omega
    constructor <;> simp [downloadTicks, hn, dlInit, dlStep, dlSettle]
  · intro tickTimeout tvs hlive
    have hmid := wp_fold_values tickTimeout tvs tickTimeout [] hlive
    constructor <;> simp [waitForPendingTicks, wpInit, hmid, wpFinish, wpFire]
  · intro tickTimeout τe hτ
    have hnd : ¬ tickTimeout ≤ τe := by omega
    refine ⟨?_, ?_, ?_⟩ <;>
      simp [waitForPendingTicks, wpInit, wpStep, hnd, wpFinish, wpSettle]

/-- Claim C5 amended witness: concrete instances of every teardown path. -/
theorem tick_session_teardown_witness :
    (downloadTicks 1 true ([3].map MonitorEvent.value)).subActive = false
    ∧ (downloadTicks 1 false []).subActive = false
    ∧ (downloadTicks 1 true [MonitorEvent.errEvt]).subActive = true
    ∧ (waitForPendingTicks 5 [(2, WPEvent.value 9)]).monitorRemoved = true
    ∧ (waitForPendingTicks 5 [(2, WPEvent.errEvt)]).deadline = none := by
  have h := tick_session_teardown
  exact ⟨h.1 1 [3] (by decide) (by decide) (by decide),
         (h.2.1 1 (by decide) (by decide)).1,
         (h.2.2.1 1 (by decide) (by decide)).2,
         (h.2.2.2.1 5 [(2, 9)] (by decide)).1,
         (h.2.2.2.2 5 2 (by decide)).1⟩

/-! ### Native timer registry (Background.m `setTimeout` / `clearTimeout`)

`setTimeout` schedules a dispatch block and stores it in the `pendingTimers`
dictionary under the caller-chosen id; `clearTimeout` cancels and removes the
dictionary-tracked block; a firing block removes its id from the dictionary
and resolves.  `dispatchPending` models the blocks scheduled through
`dispatch_after` that have neither fired nor been cancelled; blocks are
numbered by creation order. -/

/-- State of the native timer module. -/
structure TimerState : Type where
  dispatchPending : List (Nat × String)
  pendingTimers : List (String × Nat)
  nextBlock : Nat
deriving DecidableEq, Repr

/-- `setTimeout(timeout, timeoutId)`: schedule a fresh dispatch block and
store it under `timeoutId`, overwriting any previous entry without
cancelling its block. -/
def setTimeout (timeoutId : String) (st : TimerState) : TimerState :=
  { dispatchPending := st.dispatchPending ++ [(st.nextBlock, timeoutId)],
    pendingTimers := insertKey timeoutId st.nextBlock st.pendingTimers,
    nextBlock := st.nextBlock + 1 }

/-- `clearTimeout(timeoutId)`: if the dictionary holds a block for the id,
cancel that block and remove the entry; otherwise do nothing. -/
def clearTimeout (timeoutId : String) (st : TimerState) : TimerState :=
  match lookupKey timeoutId st.pendingTimers with
  | none => st
  | some b =>
    { st with
        dispatchPending := st.dispatchPending.filter (fun p => p.1 ≠ b),
        pendingTimers := eraseKey timeoutId st.pendingTimers }

/-- A scheduled block fires: it leaves the dispatch queue, removes its id
from the dictionary (whatever block the entry holds), and resolves. -/
def timerFire (b : Nat) (st : TimerState) : TimerState :=
  match st.dispatchPending.find? (fun p => p.1 = b) with
  | none => st
  | some pr =>
    { st with
        dispatchPending := st.dispatchPending.filter (fun p => p.1 ≠ b),
        pendingTimers := eraseKey pr.2 st.pendingTimers }

/-- Interaction steps of the timer module. -/
inductive TimerOp : Type
  | set (id : String)
  | clear (id : String)
  | fire (b : Nat)
deriving DecidableEq, Repr

def timerApply (st : TimerState) : TimerOp → TimerState
  | .set id => setTimeout id st
  | .clear id => clearTimeout id st
  | .fire b => timerFire b st

def timerInit : TimerState := ⟨[], [], 0⟩

def runTimerOps (ops : List TimerOp) : TimerState :=
  ops.foldl timerApply timerInit

/-- Number of not-yet-fired, not-cancelled dispatch blocks for an id. -/
def livePerId (st : TimerState) (id : String) : Nat :=
  (st.dispatchPending.filter (fun p => p.2 = id)).length

/-- Number of dictionary entries for an id. -/
def regPerId (st : TimerState) (id : String) : Nat :=
  (st.pendingTimers.filter (fun p => p.1 = id)).length

/-- Claim C4 counterexample: two consecutive `setTimeout` calls with the same
id leave two concurrently pending dispatch blocks for that id — the second
registration overwrites the dictionary entry without cancelling the first
block, refuting that at most one live timer per identifier ever exists. -/
theorem setTimeout_same_id_two_live :
    ¬ livePerId (runTimerOps [TimerOp.set "t", TimerOp.set "t"]) "t" ≤ 1 := by
  decide

theorem eraseKey_filter_self {α : Type} (k : String) (l : List (String × α)) :
    (eraseKey k l).filter (fun p => p.1 = k) = [] := by
  induction l with
  | nil => rfl
  | cons p rest ih =>
    obtain ⟨q, v⟩ := p
    by_cases h : q = k
    · simpa [eraseKey, h] using ih
    · simp [eraseKey, h, ih]

theorem eraseKey_sublist {α : Type} (k : String) (l : List (String × α)) :
    List.Sublist (eraseKey k l) l := by
  induction l with
  | nil => simp [eraseKey]
  | cons p rest ih =>
    obtain ⟨q, v⟩ := p
    by_cases h : q = k
    · simp only [eraseKey, if_pos h]
      exact ih.trans (List.sublist_cons_self _ _)
    · simp only [eraseKey, if_neg h]
      exact ih.cons₂ _

theorem eraseKey_filter_le {α : Type} (k id : String) (l : List (String × α)) :
    ((eraseKey k l).filter (fun p => p.1 = id)).length
      ≤ (l.filter (fun p => p.1 = id)).length :=
  ((eraseKey_sublist k l).filter _).length_le

/-- The dictionary-entry count per id never exceeds one. -/
def timerRegBound (st : TimerState) : Prop :=
  ∀ id, regPerId st id ≤ 1

theorem timerApply_regBound (st : TimerState) (op : TimerOp)
    (h : timerRegBound st) : timerRegBound (timerApply st op) := by
  cases op with
  | set id =>
    intro q
    by_cases hq : id = q
    · subst hq
      simp [timerApply, setTimeout, regPerId, insertKey, eraseKey_filter_self]
    · have hle := eraseKey_filter_le id q st.pendingTimers
      have hb := h q
      simp only [timerApply, setTimeout, regPerId, insertKey] at *
      simp [hq]
      omega
  | clear id =>
    intro q
    simp only [timerApply, clearTimeout]
    cases hl : lookupKey id st.pendingTimers with
    | none => exact h q
    | some b =>
      have hle := eraseKey_filter_le id q st.pendingTimers
      have hb := h q
      simp only [regPerId] at *
      omega
  | fire b =>
    intro q
    simp only [timerApply, timerFire]
    cases hl : st.dispatchPending.find? (fun p => p.1 = b) with
    | none => exact h q
    | some pr =>
      have hle := eraseKey_filter_le pr.2 q st.pendingTimers
      have hb := h q
      simp only [regPerId] at *
      omega

theorem foldl_timer_regBound (ops : List TimerOp) :
    ∀ st, timerRegBound st → timerRegBound (ops.foldl timerApply st) := by
  induction ops with
  | nil => intro st h; exact h
  | cons op rest ih =>
    intro st h
    exact ih (timerApply st op) (timerApply_regBound st op h)

/-- Claim C4 (amended): along every interaction sequence the `pendingTimers`
dictionary holds at most one entry per identifier; but `setTimeout` on an id
that is already registered overwrites the dictionary entry without cancelling
the previously scheduled dispatch block — the old block stays pending, so two
dispatch-level timers for one id can be live concurrently. -/
theorem timer_registry_single_entry :
    (∀ (ops : List TimerOp) (id : String), regPerId (runTimerOps ops) id ≤ 1)
    ∧ (∀ (st : TimerState) (id : String),
        lookupKey id (setTimeout id st).pendingTimers = some st.nextBlock
        ∧ (setTimeout id st).dispatchPending
          = st.dispatchPending ++ [(st.nextBlock, id)]) := by
  constructor
  · intro ops id
    refine foldl_timer_regBound ops timerInit ?_ id
    intro q
    simp [timerInit, regPerId]
  · intro st id
    exact ⟨lookupKey_insertKey_self id st.nextBlock st.pendingTimers, rfl⟩

/-! ### Background-task registry (Background.m `startBackgroundTask` /
`endBackgroundTask` and the OS expiry handler)

`pendingBackgroundTasks` maps a task name to the OS-granted numeric token.
`emittedEvents` lists the `BackgroundTaskExpired` event payloads sent to
JavaScript; `osEndedTokens` lists the tokens released via
`endBackgroundTask:` on the OS. -/

/-- State of the background-task tracker. -/
structure BGState : Type where
  pendingBackgroundTasks : List (String × Nat)
  hasListeners : Bool
  emittedEvents : List String
  osEndedTokens : List Nat
deriving DecidableEq, Repr

/-- `startBackgroundTask(taskName)`: `osGrant` is the OS reply —
`none` models `UIBackgroundTaskInvalid` (the promise rejects and the state
is untouched); a granted token is stored under the task name and the promise
resolves with the name. -/
def startBackgroundTask (taskName : String) (osGrant : Option Nat)
    (st : BGState) : BGState × Option String :=
  match osGrant with
  | none => (st, none)
  | some token =>
    ({ st with pendingBackgroundTasks :=
        insertKey taskName token st.pendingBackgroundTasks }, some taskName)

/-- `endBackgroundTask(taskName)`: release the stored token and drop the
entry; a no-op when the name is unknown. -/
def endBackgroundTask (taskName : String) (st : BGState) : BGState :=
  match lookupKey taskName st.pendingBackgroundTasks with
  | none => st
  | some token =>
    { st with osEndedTokens := st.osEndedTokens ++ [token],
              pendingBackgroundTasks :=
                eraseKey taskName st.pendingBackgroundTasks }

/-- The OS expiry callback for `taskName`: nothing happens if the handle is
gone; otherwise, with a listener present the `BackgroundTaskExpired` event is
emitted and the handle kept; with none the token is released to the OS and
the handle removed. -/
def backgroundTaskExpiry (taskName : String) (st : BGState) : BGState :=
  match lookupKey taskName st.pendingBackgroundTasks with
  | none => st
  | some token =>
    if st.hasListeners then
      { st with emittedEvents := st.emittedEvents ++ [taskName] }
    else
      { st with osEndedTokens := st.osEndedTokens ++ [token],
                pendingBackgroundTasks :=
                  eraseKey taskName st.pendingBackgroundTasks }

/-- Claim C6: when the OS expiry callback fires for a registered handle, a
present observer receives the `Expired` event and the handle and token are
left intact; with no observer the token is released to the OS, the handle is
removed, and no event is emitted. -/
theorem backgroundTaskExpiry_policy (st : BGState) (name : String) (token : Nat)
    (hp : lookupKey name st.pendingBackgroundTasks = some token) :
    (st.hasListeners = true →
      (backgroundTaskExpiry name st).emittedEvents = st.emittedEvents ++ [name]
      ∧ (backgroundTaskExpiry name st).pendingBackgroundTasks
        = st.pendingBackgroundTasks
      ∧ (backgroundTaskExpiry name st).osEndedTokens = st.osEndedTokens)
    ∧ (st.hasListeners = false →
      (backgroundTaskExpiry name st).osEndedTokens = st.osEndedTokens ++ [token]
      ∧ lookupKey name (backgroundTaskExpiry name st).pendingBackgroundTasks
        = none
      ∧ (backgroundTaskExpiry name st).emittedEvents = st.emittedEvents) := by
  constructor
  · intro hl
    simp [backgroundTaskExpiry, hp, hl]
  · intro hl
    simp [backgroundTaskExpiry, hp, hl, lookupKey_eraseKey_self]

/-- Claim C6 witness: one registered handle under each listener regime. -/
theorem backgroundTaskExpiry_policy_witness :
    ((backgroundTaskExpiry "a" ⟨[("a", 7)], true, [], []⟩).emittedEvents = ["a"]
      ∧ (backgroundTaskExpiry "a" ⟨[("a", 7)], true, [], []⟩).pendingBackgroundTasks
        = [("a", 7)])
    ∧ ((backgroundTaskExpiry "a" ⟨[("a", 7)], false, [], []⟩).osEndedTokens = [7]
      ∧ lookupKey "a"
          (backgroundTaskExpiry "a" ⟨[("a", 7)], false, [], []⟩).pendingBackgroundTasks
        = none) := by
  have h1 := (backgroundTaskExpiry_policy ⟨[("a", 7)], true, [], []⟩ "a" 7
    (by decide)).1 rfl
  have h2 := (backgroundTaskExpiry_policy ⟨[("a", 7)], false, [], []⟩ "a" 7
    (by decide)).2 rfl
  exact ⟨⟨h1.1, h1.2.1⟩, ⟨h2.1, h2.2.1⟩⟩

theorem endBackgroundTask_found (st : BGState) (name : String) (token : Nat)
    (h : lookupKey name st.pendingBackgroundTasks = some token) :
    endBackgroundTask name st =
      { st with osEndedTokens := st.osEndedTokens ++ [token],
                pendingBackgroundTasks :=
                  eraseKey name st.pendingBackgroundTasks } := by
  simp [endBackgroundTask, h]

/-- Claim C7: a granted `begin` immediately followed by `end` releases the
token and leaves no residual handle; a later `begin` with the same name
succeeds on its own and registers the new token; `end` on an unknown name is
a no-op. -/
theorem beginEndBackgroundTask_cancel (st : BGState) (name : String)
    (token token2 : Nat) :
    lookupKey name
      (endBackgroundTask name
        (startBackgroundTask name (some token) st).1).pendingBackgroundTasks
      = none
    ∧ (endBackgroundTask name
        (startBackgroundTask name (some token) st).1).osEndedTokens
      = st.osEndedTokens ++ [token]
    ∧ (startBackgroundTask name (some token2)
        (endBackgroundTask name
          (startBackgroundTask name (some token) st).1)).2 = some name
    ∧ lookupKey name
        (startBackgroundTask name (some token2)
          (endBackgroundTask name
            (startBackgroundTask name (some token) st).1)).1.pendingBackgroundTasks
      = some token2
    ∧ (lookupKey name st.pendingBackgroundTasks = none →
        endBackgroundTask name st = st) := by
  have hlk : lookupKey name
      (startBackgroundTask name (some token) st).1.pendingBackgroundTasks
      = some token := lookupKey_insertKey_self name token st.pendingBackgroundTasks
  refine ⟨?_, ?_, ?_, ?_, ?_⟩
  · rw [endBackgroundTask_found _ _ _ hlk]
    exact lookupKey_eraseKey_self name _
  · rw [endBackgroundTask_found _ _ _ hlk]
    simp [startBackgroundTask]
  · simp [startBackgroundTask]
  · exact lookupKey_insertKey_self name token2 _
  · intro hnone
    simp [endBackgroundTask, hnone]

/-- Claim C7 witness: concrete begin/end/begin run and an unknown-name end. -/
theorem beginEndBackgroundTask_cancel_witness :
    lookupKey "job"
      (endBackgroundTask "job"
        (startBackgroundTask "job" (some 3) ⟨[], true, [], []⟩).1).pendingBackgroundTasks
      = none
    ∧ endBackgroundTask "job" ⟨[], true, [], []⟩ = ⟨[], true, [], []⟩ := by
  have h := beginEndBackgroundTask_cancel ⟨[], true, [], []⟩ "job" 3 4
  exact ⟨h.1, h.2.2.2.2 (by decide)⟩

/-! ### Processing-task registry (Background.m `backgroundTaskExecuting` /
`completeBackgroundProcessing`)

`executingTasks` maps a task name to the OS-delivered task instance
(identified by a number).  `osCompleted` lists the
`setTaskCompletedWithSuccess:` reports sent to the OS. -/

/-- State of the processing-task tracker. -/
structure ProcState : Type where
  executingTasks : List (String × Nat)
  hasListeners : Bool
  osCompleted : List (Nat × Bool)
  emittedExecuting : List String
deriving DecidableEq, Repr

/-- `backgroundTaskExecuting:` — OS delivery of a processing-task instance.
With a listener present the instance is registered and the `Executing` event
emitted (and the expiration handler installed); with none the instance is
immediately reported completed-successful and never registered. -/
def backgroundTaskExecuting (identifier : String) (task : Nat)
    (st : ProcState) : ProcState :=
  if st.hasListeners then
    { st with executingTasks := insertKey identifier task st.executingTasks,
              emittedExecuting := st.emittedExecuting ++ [identifier] }
  else
    { st with osCompleted := st.osCompleted ++ [(task, true)] }

/-- `completeBackgroundProcessing(taskName, result)`: remove the executing
instance and report the boolean result to the OS; a no-op when the name is
absent. -/
def completeBackgroundProcessing (taskName : String) (result : Bool)
    (st : ProcState) : ProcState :=
  match lookupKey taskName st.executingTasks with
  | none => st
  | some task =>
    { st with executingTasks := eraseKey taskName st.executingTasks,
              osCompleted := st.osCompleted ++ [(task, result)] }

/-- Claim C8: an instance delivered with no observer is immediately reported
completed-successful and never enters the executing registry; `complete` on
an absent name is a no-op with no OS report; `complete` on a present entry
removes it and reports the boolean result. -/
theorem processingTask_registry (st : ProcState) (id : String) (task : Nat)
    (res : Bool) :
    (st.hasListeners = false →
      backgroundTaskExecuting id task st =
        { st with osCompleted := st.osCompleted ++ [(task, true)] })
    ∧ (lookupKey id st.executingTasks = none →
      completeBackgroundProcessing id res st = st)
    ∧ (∀ tk, lookupKey id st.executingTasks = some tk →
      (completeBackgroundProcessing id res st).executingTasks
        = eraseKey id st.executingTasks
      ∧ lookupKey id (completeBackgroundProcessing id res st).executingTasks
        = none
      ∧ (completeBackgroundProcessing id res st).osCompleted
        = st.osCompleted ++ [(tk, res)]) := by
  refine ⟨?_, ?_, ?_⟩
  · intro hl
    simp [backgroundTaskExecuting, hl]
  · intro hn
    simp [completeBackgroundProcessing, hn]
  · intro tk htk
    refine ⟨?_, ?_, ?_⟩ <;>
      simp [completeBackgroundProcessing, htk, lookupKey_eraseKey_self]

/-- Claim C8 witness: concrete no-observer delivery, no-op completion, and a
real completion. -/
theorem processingTask_registry_witness :
    backgroundTaskExecuting "p" 5 ⟨[], false, [], []⟩
      = ⟨[], false, [(5, true)], []⟩
    ∧ completeBackgroundProcessing "p" true ⟨[], true, [], []⟩
      = ⟨[], true, [], []⟩
    ∧ (completeBackgroundProcessing "p" false ⟨[("p", 5)], true, [], []⟩).osCompleted
      = [(5, false)] := by
  have h1 := (processingTask_registry ⟨[], false, [], []⟩ "p" 5 true).1 rfl
  have h2 := (processingTask_registry ⟨[], true, [], []⟩ "p" 5 true).2.1 (by decide)
  have h3 := ((processingTask_registry ⟨[("p", 5)], true, [], []⟩ "p" 5 false).2.2
    5 (by decide)).2.2
  exact ⟨h1, h2, h3⟩

/-! ### `establishConnection` (BleManager.ts)

After waiting for the powered-on radio the function queries the already
connected devices exposing the target service; only when that list is empty
does it start a scan.  The chosen device is then connected and discovered.
Devices are identified by numbers; `scanResult` is the device the bounded
scan would deliver (`none` models a scan timeout or scan error). -/

/-- Externally visible steps of `establishConnection`, in order. -/
inductive EstAction : Type
  | waitPoweredOn
  | queryConnected
  | scanStart
  | connectTo (d : Nat)
  | discover (d : Nat)
deriving DecidableEq, Repr

/-- `establishConnection(onDisconnected)`: the action trace and the device
the promise resolves with (`none` when the scan fails). -/
def establishConnection (connected : List Nat) (scanResult : Option Nat) :
    List EstAction × Option Nat :=
  match connected with
  | d :: _ =>
    ([.waitPoweredOn, .queryConnected, .connectTo d, .discover d], some d)
  | [] =>
    match scanResult with
    | some d =>
      ([.waitPoweredOn, .queryConnected, .scanStart, .connectTo d, .discover d],
        some d)
    | none => ([.waitPoweredOn, .queryConnected, .scanStart], none)

/-- Claim C9: with a non-empty connected-devices list no scan is ever
started — the first device is taken and the sequence proceeds directly to
connect and discover; a scan is started only when the list is empty. -/
theorem establishConnection_skips_scan (connected : List Nat)
    (scanResult : Option Nat) :
    (∀ d rest, connected = d :: rest →
      establishConnection connected scanResult =
        ([.waitPoweredOn, .queryConnected, .connectTo d, .discover d], some d)
      ∧ EstAction.scanStart ∉ (establishConnection connected scanResult).1)
    ∧ (connected = [] →
      EstAction.scanStart ∈ (establishConnection connected scanResult).1) := by
  constructor
  · intro d rest hc
    subst hc
    constructor
    · rfl
    · simp [establishConnection]
  · intro hc
    subst hc
    cases scanResult <;> simp [establishConnection]

/-- Claim C9 witness: one already-connected device versus none. -/
theorem establishConnection_skips_scan_witness :
    establishConnection [4] (some 9) =
      ([.waitPoweredOn, .queryConnected, .connectTo 4, .discover 4], some 4)
    ∧ EstAction.scanStart ∈ (establishConnection [] (some 9)).1 := by
  have h1 := ((establishConnection_skips_scan [4] (some 9)).1 4 [] rfl).1
  have h2 := (establishConnection_skips_scan [] (some 9)).2 rfl
  exact ⟨h1, h2⟩

/-! ### `scheduleBackgroundProcessingTask` (BleManager.ts)

The executing handler runs the BLE job and reports completion to the OS with
`true` whether the job promise resolves or rejects; only the expiration
handler reports `false`. -/

/-- Outcome of the connect–download–disconnect job promise. -/
inductive JobOutcome : Type
  | resolved
  | rejected
deriving DecidableEq, Repr

/-- The completion report issued by the executing handler for either job
outcome: the `then` branch and the `catch` branch both call
`completeBackgroundProcessingTask(taskName, true)`. -/
def executingTaskCompletion (taskName : String) (outcome : JobOutcome) :
    String × Bool :=
  match outcome with
  | .resolved => (taskName, true)
  | .rejected => (taskName, true)

/-- The completion report issued by the expiration handler:
`completeBackgroundProcessingTask(taskName, false)`. -/
def expiredTaskCompletion (taskName : String) : String × Bool :=
  (taskName, false)

/-- Claim C10: the scheduled processing job reports success to the OS on both
job outcomes — resolution and rejection — while only the expiry path reports
failure. -/
theorem scheduleBackgroundProcessingTask_reports (taskName : String)
    (outcome : JobOutcome) :
    executingTaskCompletion taskName outcome = (taskName, true)
    ∧ expiredTaskCompletion taskName = (taskName, false) := by
  cases outcome <;> exact ⟨rfl, rfl⟩
